import Mathlib

/-!
Verification of the azure-pricing-mcp server
(`.github/mcp/azure-pricing-mcp/azure_pricing_mcp/server.py`).

The development shallowly embeds, over plain `Nat`/`Int`/`ℚ`/`List`:
* the Content-Length frame codec of `run_mcp_stdio` / `_mcp_write`
  (bytes are `Nat` values, buffers are `List Nat`);
* the retry loop of `fetch_prices` (attempt outcomes supplied by an oracle);
* the JSON-RPC dispatcher `handle` with the concrete tool handlers
  `price_search` and `cost_estimate` (JSON values as an inductive `JVal`,
  Python `None` identified with JSON `null`).
-/

namespace AzurePricing

/-! ## Byte-level helpers for the frame codec

The decode loop in `run_mcp_stdio` works on a byte buffer:
`buffer.find(b"\r\n\r\n")`, then
`re.search(r"Content-Length:\s*(\d+)", header_text, re.IGNORECASE)` on the
UTF-8-decoded header block.  We model bytes as `Nat` (13 = CR, 10 = LF);
the regex model is exact for ASCII header bytes. -/

/-- ASCII decimal digit byte. -/
def isDigitB (b : Nat) : Bool := 48 ≤ b && b ≤ 57

/-- Byte whose character matches the regex class backslash-s
(space, tab, LF, VT, FF, CR). -/
def isSpaceB (b : Nat) : Bool :=
  b == 32 || b == 9 || b == 10 || b == 11 || b == 12 || b == 13

/-- ASCII lower-casing of a byte, for the IGNORECASE regex flag. -/
def lowerB (b : Nat) : Nat := if 65 ≤ b && b ≤ 90 then b + 32 else b

/-- The bytes of `"content-length:"` (the regex literal, lower-cased). -/
def clLit : List Nat := [99, 111, 110, 116, 101, 110, 116, 45, 108, 101, 110, 103, 116, 104, 58]

/-- The bytes of `"Content-Length: "` as written by `_mcp_write`. -/
def clBytes : List Nat :=
  [67, 111, 110, 116, 101, 110, 116, 45, 76, 101, 110, 103, 116, 104, 58, 32]

/-- The header/body separator bytes `"\r\n\r\n"`. -/
def crlf2 : List Nat := [13, 10, 13, 10]

/-- Value of a run of ASCII digit bytes, as computed by Python `int`. -/
def digitsToNat (ds : List Nat) : Nat := ds.foldl (fun acc d => acc * 10 + (d - 48)) 0

/-- Decimal digit bytes of `n`, fuel-driven so that it reduces computationally
(`n + 1` units of fuel always suffice). -/
def natDigitsAux : Nat → Nat → List Nat → List Nat
  | 0, _, acc => acc
  | f + 1, n, acc =>
    if n < 10 then (48 + n) :: acc else natDigitsAux f (n / 10) ((48 + n % 10) :: acc)

/-- Decimal digit bytes of `n` (the bytes of Python `str(n)` for `n : Nat`). -/
def natDigits (n : Nat) : List Nat := natDigitsAux (n + 1) n []

/-- Recursive reference version of `natDigits`, used in proofs. -/
def natDigitsRec (n : Nat) : List Nat :=
  if h : n < 10 then [48 + n] else natDigitsRec (n / 10) ++ [48 + n % 10]
  termination_by n
  decreasing_by exact Nat.div_lt_self (by omega) (by omega)

/-- `_mcp_write`: the encoder emits
`"Content-Length: " + len(payload) + "\r\n\r\n" + payload` and nothing else. -/
def frameEncode (payload : List Nat) : List Nat :=
  clBytes ++ natDigits payload.length ++ crlf2 ++ payload

/-- Does the buffer start with `"\r\n\r\n"`? -/
def isSepAt (l : List Nat) : Bool := l.take 4 == crlf2

/-- `buffer.find(b"\r\n\r\n")`: index of the first occurrence of the
header/body separator, `none` when absent. -/
def findSep : List Nat → Option Nat
  | [] => none
  | a :: t => if isSepAt (a :: t) then some 0 else (findSep t).map (· + 1)

/-- Attempt of the regex `Content-Length:\s*(\d+)` anchored at the head of
the byte list: case-insensitive literal, then optional whitespace, then a
maximal nonempty digit run (the greedy capture). -/
def matchCLAt (l : List Nat) : Option Nat :=
  if (l.take 15).map lowerB == clLit then
    if (((l.drop 15).dropWhile isSpaceB).takeWhile isDigitB).isEmpty then none
    else some (digitsToNat (((l.drop 15).dropWhile isSpaceB).takeWhile isDigitB))
  else none

/-- `re.search` of `Content-Length:\s*(\d+)` over the header bytes: the
leftmost position where the whole pattern matches wins. -/
def searchCL : List Nat → Option Nat
  | [] => none
  | a :: t =>
    match matchCLAt (a :: t) with
    | some n => some n
    | none => searchCL t

/-- One pass of the inner `while True` decode loop of `run_mcp_stdio`,
fuel-driven (each iteration consumes at least 4 buffer bytes, so
`buffer.length` units of fuel always suffice).  Returns the bodies of the
frames extracted, in order, together with the remaining buffer:
* no separator → wait for more data, buffer untouched;
* header block without parsable `Content-Length` → discard the header block
  plus separator and continue (resynchronization);
* body not fully buffered → wait for more data, buffer untouched
  (header bytes are not consumed);
* otherwise extract the body and continue on the remainder. -/
def decodeLoop : Nat → List Nat → List (List Nat) × List Nat
  | 0, buffer => ([], buffer)
  | fuel + 1, buffer =>
    match findSep buffer with
    | none => ([], buffer)
    | some headerEnd =>
      match searchCL (buffer.take headerEnd) with
      | none => decodeLoop fuel (buffer.drop (headerEnd + 4))
      | some n =>
        if buffer.length < headerEnd + 4 + n then ([], buffer)
        else
          let body := (buffer.drop (headerEnd + 4)).take n
          let out := decodeLoop fuel (buffer.drop (headerEnd + 4 + n))
          (body :: out.1, out.2)

/-- The decode loop run on a buffer until it reports "wait for more data". -/
def decodeAll (buffer : List Nat) : List (List Nat) × List Nat :=
  decodeLoop buffer.length buffer


/-! ## The retry loop of `fetch_prices`

`fetch_prices` performs `requests.get` up to `RETRIES` times inside
`try: ... except requests.RequestException`, sleeping
`BACKOFF * 2 ** attempt` between failing attempts.  The network is modelled
by an oracle giving each attempt's outcome; Python floats are modelled as
exact rationals (exact for the dyadic values involved). -/

/-- Outcome of one attempt inside `fetch_prices`:
* `success body` — a 2xx response whose body parses as JSON (`resp.json()`
  returns the parsed value);
* `transportError e` — `requests.get` or `resp.raise_for_status()` raised a
  `requests.RequestException` (connection error, timeout, non-2xx status);
* `badJson e` — a 2xx response whose body is not valid JSON: `resp.json()`
  raises `requests.exceptions.JSONDecodeError`, which since requests 2.27
  subclasses `InvalidJSONError` and hence `RequestException`, so the
  `except requests.RequestException` clause catches it exactly like a
  transport error. -/
inductive Attempt (J : Type) where
  | success (body : J)
  | transportError (e : String)
  | badJson (e : String)

/-- The loop `for attempt in range(RETRIES)` of `fetch_prices`, run from a
given attempt index with the given number of remaining iterations.  Returns
the Python-level result (`.ok` = the parsed JSON body returned, `.error` =
the message of the exception propagated to the caller), the number of HTTP
GET calls performed, and the list of back-off sleep durations in seconds, in
order.  The base case is the fall-through after the loop (`RETRIES = 0`):
`last_error` is `None`, so `RuntimeError("Failed to fetch pricing data")`. -/
def fetchGo {J : Type} (backoff : ℚ) (oracle : Nat → Attempt J) (attempt : Nat) :
    Nat → Except String J × Nat × List ℚ
  | 0 => (.error "Failed to fetch pricing data", 0, [])
  | remaining + 1 =>
    match oracle attempt with
    | .success body => (.ok body, 1, [])
    | .transportError e | .badJson e =>
      if remaining = 0 then (.error e, 1, [])
      else
        let out := fetchGo backoff oracle (attempt + 1) remaining
        (out.1, out.2.1 + 1, backoff * 2 ^ attempt :: out.2.2)

/-- A full `fetch_prices` invocation: the attempt loop started at attempt 0
with `RETRIES` iterations remaining. -/
def fetch_prices {J : Type} (backoff : ℚ) (retries : Nat) (oracle : Nat → Attempt J) :
    Except String J × Nat × List ℚ :=
  fetchGo backoff oracle 0 retries

/-! ## JSON values and the JSON-RPC dispatcher

`run_mcp_stdio` parses each frame body with `json.loads` and hands the
result to `handle`.  JSON values are modelled by `JVal`; Python `None` is
identified with JSON `null` (`json.loads` maps `null` to `None`); numbers
are modelled as exact rationals. -/

/-- A decoded JSON value (equivalently, the Python value `json.loads`
produces for it). -/
inductive JVal where
  | null
  | bool (b : Bool)
  | num (q : ℚ)
  | str (s : String)
  | arr (xs : List JVal)
  | obj (kvs : List (String × JVal))

/-- Key lookup in a decoded JSON object (a Python dict; decoded dicts have
unique keys). -/
def lookupKV : List (String × JVal) → String → Option JVal
  | [], _ => none
  | (k2, v) :: rest, k => if k2 = k then some v else lookupKV rest k

/-- Field access on a JSON value: lookup for objects, nothing otherwise. -/
def getField : JVal → String → Option JVal
  | .obj kvs, k => lookupKV kvs k
  | _, _ => none

/-- Python truthiness of a JSON value (`if x:` and `x or y`). -/
def truthy : JVal → Bool
  | .null => false
  | .bool b => b
  | .num q => q != 0
  | .str s => s != ""
  | .arr xs => !xs.isEmpty
  | .obj kvs => !kvs.isEmpty

/-- Python `x or dflt`: `x` when truthy, otherwise `dflt`. -/
def pyOr (x dflt : JVal) : JVal := if truthy x then x else dflt

/-- `d.get(k)` on a dict originating from JSON: an absent key gives Python
`None`, i.e. `.null` (a present JSON `null` value also gives `.null`). -/
def pyGet0 (kvs : List (String × JVal)) (k : String) : JVal :=
  (lookupKV kvs k).getD .null

/-- `v.get(k)` where `v` may be any JSON value: raises `AttributeError`
when `v` is not a dict. -/
def pyGet1 (v : JVal) (k : String) : Except String JVal :=
  match v with
  | .obj kvs => .ok (pyGet0 kvs k)
  | _ => .error "AttributeError: no attribute get"

/-- `v.get(k, dflt)`: the default applies only when the key is absent. -/
def pyGetDflt (v : JVal) (k : String) (dflt : JVal) : Except String JVal :=
  match v with
  | .obj kvs => .ok ((lookupKV kvs k).getD dflt)
  | _ => .error "AttributeError: no attribute get"

/-- `str(x)` / f-string rendering of a JSON value.  Exact for strings,
`None` and booleans; approximate renderings for the remaining shapes (no
claim depends on those). -/
def pyStr : JVal → String
  | .str s => s
  | .null => "None"
  | .bool true => "True"
  | .bool false => "False"
  | .num q => toString q
  | .arr _ => "[...]"
  | .obj _ => "{...}"

/-- `int(x)` on a JSON value: integers pass through, non-integers truncate
toward zero, booleans give 0/1; other shapes raise.  (Numeric strings,
which Python would parse, are modelled as raising; no claim exercises
them.) -/
def pyInt : JVal → Except String Int
  | .num q => .ok (if 0 ≤ q then ⌊q⌋ else ⌈q⌉)
  | .bool b => .ok (if b then 1 else 0)
  | _ => .error "TypeError: int() argument"

/-- `x == "lit"` for a Python string literal. -/
def isStr (v : JVal) (s : String) : Bool :=
  match v with
  | .str t => t == s
  | _ => false

/-- `x is None`. -/
def isNull : JVal → Bool
  | .null => true
  | _ => false

/-- Python whitespace characters stripped by `str.strip()` (space, tab, LF,
CR, VT, FF; exact for the ASCII fragment). -/
def isWSChar (c : Char) : Bool :=
  c = ' ' || c = '\t' || c = '\n' || c = '\r' || c = Char.ofNat 11 || c = Char.ofNat 12

/-- Python `s.strip()`: removes leading and trailing whitespace. -/
def pyStrip (s : String) : String :=
  String.mk (((s.data.dropWhile isWSChar).reverse.dropWhile isWSChar).reverse)

/-- `_odata_escape`: OData string literals escape a single quote (byte
0x27) by doubling it. -/
def _odata_escape (value : String) : String := value.replace "\x27" "\x27\x27"

/-- `data.get("Items", [])` as used by `price_search`, together with the
`len(...)` / `[:5]` uses of the result: modelled for a dict payload whose
`Items` value (when present) is a JSON array; other payload shapes are
modelled as raising (`AttributeError` for a non-dict payload, `TypeError`
otherwise). -/
def getItems (data : JVal) : Except String (List JVal) :=
  match data with
  | .obj kvs =>
    match lookupKV kvs "Items" with
    | none => .ok []
    | some (.arr xs) => .ok xs
    | some _ => .error "TypeError: Items is not a list"
  | _ => .error "AttributeError: no attribute get"

/-- `price_search`: validates the SKU, builds the OData filter expression,
performs the upstream fetch (supplied as a function from the filter
expression to the fetch outcome, abstracting `fetch_prices` over the
network), and shapes the result with `count` and the first five items. -/
def price_search (fetch : String → Except String JVal) (sku : String)
    (region currency : JVal) : Except String JVal :=
  if pyStrip sku = "" then .error "sku must be a non-empty string"
  else if 200 < sku.length then .error "sku is too long"
  else
    let filters := ["contains(skuName,\x27" ++ _odata_escape (pyStrip sku) ++ "\x27)"]
    let filters := if truthy region then
        (if _odata_escape (pyStrip (pyStr region)) != "" then
          filters ++ ["armRegionName eq \x27" ++ _odata_escape (pyStrip (pyStr region)) ++ "\x27"]
        else filters)
      else filters
    let filters := if truthy currency then
        (if _odata_escape (pyStrip (pyStr currency)) != "" then
          filters ++ ["currencyCode eq \x27" ++ _odata_escape (pyStrip (pyStr currency)) ++ "\x27"]
        else filters)
      else filters
    do
      let data ← fetch (String.intercalate " and " filters)
      let items ← getItems data
      .ok (.obj [("status", .str "ok"), ("tool", .str "price_search"), ("sku", .str sku),
                 ("count", .num (items.length : ℚ)), ("items", .arr (items.take 5))])

/-- `cost_estimate`: searches, answers `not-found` on an empty items list,
otherwise prices the first item (`items[0].get("retailPrice", 0.0) or 0.0`)
and extrapolates a month of 730 hours.  A non-numeric truthy `retailPrice`
(where Python would do string/list repetition) is modelled as raising; no
claim exercises it. -/
def cost_estimate (fetch : String → Except String JVal) (sku : String) (quantity : Int)
    (region currency : JVal) : Except String JVal := do
  let search ← price_search fetch sku region currency
  let items : List JVal :=
    match getField search "items" with
    | some (.arr xs) => xs
    | _ => []
  match items with
  | [] => .ok (.obj [("status", .str "not-found"), ("tool", .str "cost_estimate"),
                     ("sku", .str sku)])
  | item0 :: _ => do
    let pv0 ← pyGetDflt item0 "retailPrice" (.num 0)
    match pyOr pv0 (.num 0) with
    | .num price =>
      .ok (.obj [("status", .str "ok"), ("tool", .str "cost_estimate"), ("sku", .str sku),
                 ("quantity", .num (quantity : ℚ)), ("unit_price", .num price),
                 ("monthly_usd", .num (price * (quantity : ℚ) * 730))])
    | _ => .error "TypeError: unsupported operand type(s)"

/-- `ping()`. -/
def ping : JVal := .obj [("status", .str "ok"), ("service", .str "azure-pricing-mcp")]

/-- `_mcp_error`. -/
def _mcp_error (reqId : JVal) (code : Int) (message : String) : JVal :=
  .obj [("jsonrpc", .str "2.0"), ("id", reqId),
        ("error", .obj [("code", .num (code : ℚ)), ("message", .str message)])]

/-- `_mcp_result`. -/
def _mcp_result (reqId : JVal) (result : JVal) : JVal :=
  .obj [("jsonrpc", .str "2.0"), ("id", reqId), ("result", result)]

/-- `_mcp_tools_list`: the static tool declarations. -/
def _mcp_tools_list : JVal :=
  .obj [("tools", .arr [
    .obj [("name", .str "price_search"),
          ("description",
           .str "Search Azure Retail Prices for a SKU name (optionally filtered by region/currency)"),
          ("inputSchema", .obj [
            ("type", .str "object"),
            ("properties", .obj [
              ("sku", .obj [("type", .str "string")]),
              ("region", .obj [("type", .arr [.str "string", .str "null"])]),
              ("currency", .obj [("type", .arr [.str "string", .str "null"])])]),
            ("required", .arr [.str "sku"])])],
    .obj [("name", .str "cost_estimate"),
          ("description",
           .str "Estimate monthly cost (rough) for a SKU and quantity (optionally filtered by region/currency)"),
          ("inputSchema", .obj [
            ("type", .str "object"),
            ("properties", .obj [
              ("sku", .obj [("type", .str "string")]),
              ("quantity", .obj [("type", .str "integer"), ("minimum", .num 1)]),
              ("region", .obj [("type", .arr [.str "string", .str "null"])]),
              ("currency", .obj [("type", .arr [.str "string", .str "null"])])]),
            ("required", .arr [.str "sku"])])]])]

/-- The `initialize` response payload. -/
def initializeResult : JVal :=
  .obj [("serverInfo", .obj [("name", .str "azure-pricing-mcp"), ("version", .str "0.1.0")]),
        ("capabilities", .obj [("tools", .obj [])])]

/-- The body of the `try:` block of `handle`: the single response object
written for the request, or (`.error`) the message of the exception the
body raised, which the outer `except Exception` clause catches and writes
as a `-32000` error.  `fetch` abstracts the upstream call performed by the
tools; `defRegion`/`defCurrency` are `DEFAULT_REGION`/`DEFAULT_CURRENCY`
(Python `None` is `.null`). -/
def dispatch (fetch : String → Except String JVal) (defRegion defCurrency : JVal)
    (reqId method params : JVal) : Except String JVal :=
  if isStr method "initialize" then .ok (_mcp_result reqId initializeResult)
  else if isStr method "ping" then .ok (_mcp_result reqId ping)
  else if isStr method "tools/list" then .ok (_mcp_result reqId _mcp_tools_list)
  else if isStr method "tools/call" then do
    let name ← pyGet1 params "name"
    let argumentsRaw ← pyGet1 params "arguments"
    let arguments := pyOr argumentsRaw (.obj [])
    let regionRaw ← pyGet1 arguments "region"
    let region := pyOr regionRaw defRegion
    let currencyRaw ← pyGet1 arguments "currency"
    let currency := pyOr currencyRaw defCurrency
    if isStr name "price_search" then do
      let sku ← pyGet1 arguments "sku"
      if truthy sku = false then pure (_mcp_error reqId (-32602) "Missing required argument: sku")
      else do
        let r ← price_search fetch (pyStr sku) region currency
        pure (_mcp_result reqId r)
    else if isStr name "cost_estimate" then do
      let sku ← pyGet1 arguments "sku"
      if truthy sku = false then pure (_mcp_error reqId (-32602) "Missing required argument: sku")
      else do
        let qty ← pyGetDflt arguments "quantity" (.num 1)
        match pyInt qty with
        | .error _ => pure (_mcp_error reqId (-32602) "quantity must be an integer")
        | .ok qi => do
          let r ← cost_estimate fetch (pyStr sku) qi region currency
          pure (_mcp_result reqId r)
    else pure (_mcp_error reqId (-32601) ("Unknown tool: " ++ pyStr name))
  else .ok (_mcp_error reqId (-32601) ("Unknown method: " ++ pyStr method))

/-- `handle` of `run_mcp_stdio`.  Each code path performs at most one
`_mcp_write`; the returned value is the written response object (`none` =
nothing written, hence zero output bytes).  Mirrors the code: a non-dict
message returns immediately; `req_id is None` (absent or JSON-null `id`) is
a notification and returns without output; otherwise exactly one response
is written — the try-body\'s, or a `-32000` error if it raised. -/
def handle (fetch : String → Except String JVal) (defRegion defCurrency : JVal)
    (msg : JVal) : Option JVal :=
  match msg with
  | .obj kvs =>
    let reqId := pyGet0 kvs "id"
    let method := pyGet0 kvs "method"
    let params := pyOr (pyGet0 kvs "params") (.obj [])
    if isNull reqId then none
    else some (match dispatch fetch defRegion defCurrency reqId method params with
      | .ok resp => resp
      | .error e => _mcp_error reqId (-32000) ("Server error: " ++ e))
  | _ => none

/-- The message is a JSON object. -/
def isObj : JVal → Bool
  | .obj _ => true
  | _ => false

/-- The request id of a message as `handle` reads it (`msg.get("id")`). -/
def reqIdOf (msg : JVal) : JVal :=
  match msg with
  | .obj kvs => pyGet0 kvs "id"
  | _ => .null

/-- `r` is a response answering request id `reqId`: it carries that id and
has a `result` or an `error` member. -/
def isRespFor (reqId r : JVal) : Prop :=
  getField r "id" = some reqId ∧ ((getField r "result").isSome ∨ (getField r "error").isSome)

/-- Lookup along a path of object keys. -/
def getPath (v : JVal) : List String → Option JVal
  | [] => some v
  | k :: ks =>
    match getField v k with
    | some w => getPath w ks
    | none => none

/-- Indexing into a JSON array. -/
def getIdx (v : JVal) (i : Nat) : Option JVal :=
  match v with
  | .arr xs => xs.get? i
  | _ => none

end AzurePricing



namespace AzurePricing

/-! ## Lemmas about decimal digits -/

theorem natDigitsAux_eq (f : Nat) : ∀ (n : Nat) (acc : List Nat), n < f →
    natDigitsAux f n acc = natDigitsRec n ++ acc := by
  induction f with
  | zero => intro n acc h; omega
  | succ f ih =>
    intro n acc h
    rw [natDigitsAux, natDigitsRec]
    by_cases h10 : n < 10
    · simp [h10]
    · have hdiv : n / 10 < n := Nat.div_lt_self (by omega) (by omega)
      rw [if_neg h10, dif_neg h10, ih (n / 10) _ (by omega)]
      simp

theorem natDigits_eq (n : Nat) : natDigits n = natDigitsRec n := by
  rw [natDigits, natDigitsAux_eq (n + 1) n [] (Nat.lt_succ_self n), List.append_nil]

theorem natDigitsRec_mem (n : Nat) : ∀ x ∈ natDigitsRec n, 48 ≤ x ∧ x ≤ 57 := by
  induction n using Nat.strong_induction_on with
  | _ n ih =>
    rw [natDigitsRec]
    by_cases h : n < 10
    · rw [dif_pos h]; intro x hx; simp at hx; omega
    · rw [dif_neg h]
      intro x hx
      rcases List.mem_append.mp hx with hx | hx
      · exact ih (n / 10) (Nat.div_lt_self (by omega) (by omega)) x hx
      · simp at hx; omega

theorem digitsToNat_append_one (ds : List Nat) (d : Nat) :
    digitsToNat (ds ++ [d]) = digitsToNat ds * 10 + (d - 48) := by
  simp [digitsToNat, List.foldl_append]

theorem digitsToNat_natDigitsRec (n : Nat) : digitsToNat (natDigitsRec n) = n := by
  induction n using Nat.strong_induction_on with
  | _ n ih =>
    rw [natDigitsRec]
    by_cases h : n < 10
    · rw [dif_pos h]; simp [digitsToNat]
    · rw [dif_neg h, digitsToNat_append_one,
        ih (n / 10) (Nat.div_lt_self (by omega) (by omega))]
      omega

theorem natDigitsRec_ne_nil (n : Nat) : natDigitsRec n ≠ [] := by
  rw [natDigitsRec]
  by_cases h : n < 10
  · rw [dif_pos h]; simp
  · rw [dif_neg h]; simp


/-! ## Lemmas about the separator search -/

theorem findSep_cons (a : Nat) (t : List Nat) :
    findSep (a :: t) = if isSepAt (a :: t) then some 0 else (findSep t).map (· + 1) := rfl

theorem isSepAt_cons_ne {a : Nat} (t : List Nat) (h : a ≠ 13) : isSepAt (a :: t) = false := by
  rw [Bool.eq_false_iff]
  intro hc
  have h2 := eq_of_beq hc
  simp [crlf2] at h2
  exact h h2.1

theorem findSep_none_no13 (l : List Nat) (h : ∀ x ∈ l, x ≠ 13) : findSep l = none := by
  induction l with
  | nil => rfl
  | cons a t ih =>
    rw [findSep_cons]
    simp [isSepAt_cons_ne t (h a (List.mem_cons_self a t)),
      ih (fun x hx => h x (List.mem_cons_of_mem _ hx))]

theorem findSep_append_none (hd s : List Nat) (h13 : ∀ x ∈ hd, x ≠ 13)
    (hs : findSep s = none) : findSep (hd ++ s) = none := by
  induction hd with
  | nil => simpa
  | cons a t ih =>
    rw [List.cons_append, findSep_cons]
    simp [isSepAt_cons_ne _ (h13 a (List.mem_cons_self a t)),
      ih (fun x hx => h13 x (List.mem_cons_of_mem _ hx))]

theorem findSep_append_no13 (hd rest : List Nat) (h : ∀ x ∈ hd, x ≠ 13) :
    findSep (hd ++ crlf2 ++ rest) = some hd.length := by
  induction hd with
  | nil =>
    simp only [List.nil_append, List.length_nil]
    rw [show crlf2 ++ rest = 13 :: (10 :: 13 :: 10 :: rest) from rfl, findSep_cons]
    simp [isSepAt, crlf2]
  | cons a t ih =>
    simp only [List.cons_append]
    rw [findSep_cons, isSepAt_cons_ne _ (h a (List.mem_cons_self a t)),
      ih (fun x hx => h x (List.mem_cons_of_mem _ hx))]
    simp

theorem findSep_some_bound (l : List Nat) (i : Nat) (h : findSep l = some i) :
    i + 4 ≤ l.length := by
  induction l generalizing i with
  | nil => simp [findSep] at h
  | cons a t ih =>
    rw [findSep_cons] at h
    by_cases hs : isSepAt (a :: t) = true
    · rw [if_pos hs] at h
      simp only [Option.some.injEq] at h
      have h4 := congrArg List.length (eq_of_beq hs)
      simp only [List.length_take, crlf2, List.length_cons, List.length_nil] at h4
      simp only [List.length_cons]
      omega
    · rw [if_neg hs] at h
      cases ht : findSep t with
      | none => rw [ht] at h; simp at h
      | some j =>
        rw [ht] at h
        simp only [Option.map_some', Option.some.injEq] at h
        have := ih j ht
        simp only [List.length_cons]
        omega

theorem findSep_append_of_some (l r : List Nat) (i : Nat) (h : findSep l = some i) :
    findSep (l ++ r) = some i := by
  induction l generalizing i with
  | nil => simp [findSep] at h
  | cons a t ih =>
    rw [findSep_cons] at h
    rw [show (a :: t) ++ r = a :: (t ++ r) from rfl, findSep_cons]
    by_cases hs : isSepAt (a :: t) = true
    · rw [if_pos hs] at h
      have hlen : 4 ≤ (a :: t).length := by
        have h4 := congrArg List.length (eq_of_beq hs)
        simp only [List.length_take, crlf2, List.length_cons, List.length_nil] at h4
        simp only [List.length_cons]
        omega
      have hsep2 : isSepAt (a :: (t ++ r)) = true := by
        rw [isSepAt] at hs ⊢
        rw [show a :: (t ++ r) = (a :: t) ++ r from rfl, List.take_append_eq_append_take,
          show 4 - (a :: t).length = 0 by omega]
        simpa using hs
      simp only [hsep2, if_true]
      exact h
    · rw [if_neg hs] at h
      obtain ⟨j, ht, hj⟩ : ∃ j, findSep t = some j ∧ j + 1 = i := by
        cases ht : findSep t with
        | none => rw [ht] at h; simp at h
        | some j =>
          rw [ht] at h
          simp only [Option.map_some', Option.some.injEq] at h
          exact ⟨j, rfl, h⟩
      have hjt := findSep_some_bound t j ht
      have hsep2 : isSepAt (a :: (t ++ r)) = false := by
        rw [Bool.not_eq_true] at hs
        rw [isSepAt] at hs ⊢
        rw [show a :: (t ++ r) = (a :: t) ++ r from rfl, List.take_append_eq_append_take,
          show 4 - (a :: t).length = 0 by simp only [List.length_cons]; omega]
        simpa using hs
      simp only [hsep2, Bool.false_eq_true, if_false]
      rw [ih j ht]
      simp [hj]

end AzurePricing

namespace AzurePricing

/-! ## The header regex finds the encoder's Content-Length value -/

theorem takeWhile_digits (ds : List Nat) (h : ∀ x ∈ ds, 48 ≤ x ∧ x ≤ 57) :
    ds.takeWhile isDigitB = ds := by
  induction ds with
  | nil => rfl
  | cons d t ih =>
    have hd := h d (List.mem_cons_self d t)
    have hdig : isDigitB d = true := by simp [isDigitB]; omega
    rw [List.takeWhile_cons, hdig]
    simp [ih (fun x hx => h x (List.mem_cons_of_mem _ hx))]

theorem matchCLAt_cl_digits (ds : List Nat) (hmem : ∀ x ∈ ds, 48 ≤ x ∧ x ≤ 57)
    (hne : ds ≠ []) : matchCLAt (clBytes ++ ds) = some (digitsToNat ds) := by
  rw [matchCLAt]
  have htake : (List.take 15 (clBytes ++ ds)).map lowerB = clLit := by
    rw [List.take_append_eq_append_take, show 15 - clBytes.length = 0 from rfl, List.take_zero,
      List.append_nil]
    decide
  rw [if_pos (beq_iff_eq.mpr htake)]
  have hdrop : List.drop 15 (clBytes ++ ds) = 32 :: ds := by
    rw [List.drop_append_eq_append_drop, show 15 - clBytes.length = 0 from rfl, List.drop_zero,
      show List.drop 15 clBytes = [32] from rfl]
    rfl
  rw [hdrop]
  cases ds with
  | nil => exact absurd rfl hne
  | cons d t =>
    have hd := hmem d (List.mem_cons_self d t)
    have hnospace : isSpaceB d = false := by simp [isSpaceB]; omega
    have h1 : List.dropWhile isSpaceB (32 :: d :: t) = d :: t := by
      rw [List.dropWhile_cons, if_pos (show isSpaceB 32 = true from rfl), List.dropWhile_cons,
        hnospace]
      simp
    rw [h1, takeWhile_digits _ hmem]
    simp

theorem searchCL_cons (a : Nat) (t : List Nat) :
    searchCL (a :: t) =
      match matchCLAt (a :: t) with
      | some n => some n
      | none => searchCL t := rfl

theorem searchCL_cl_digits (ds : List Nat) (hmem : ∀ x ∈ ds, 48 ≤ x ∧ x ≤ 57)
    (hne : ds ≠ []) : searchCL (clBytes ++ ds) = some (digitsToNat ds) := by
  have hm : matchCLAt (67 :: ([111, 110, 116, 101, 110, 116, 45, 76, 101, 110, 103, 116, 104, 58,
      32] ++ ds)) = some (digitsToNat ds) := matchCLAt_cl_digits ds hmem hne
  rw [show clBytes ++ ds = 67 :: ([111, 110, 116, 101, 110, 116, 45, 76, 101, 110, 103, 116, 104,
    58, 32] ++ ds) from rfl, searchCL_cons, hm]

/-- The header bytes written by the encoder: `"Content-Length: "` plus decimal
digits.  They contain no CR byte, so the first separator of an encoded frame
is the encoder's own separator. -/
theorem clHeader_no13 (n : Nat) : ∀ x ∈ clBytes ++ natDigits n, x ≠ 13 := by
  have hcl : ∀ x ∈ clBytes, x ≠ 13 := by decide
  intro x hx
  rcases List.mem_append.mp hx with hx | hx
  · exact hcl x hx
  · rw [natDigits_eq] at hx
    have := natDigitsRec_mem n x hx
    omega

theorem searchCL_clHeader (n : Nat) : searchCL (clBytes ++ natDigits n) = some n := by
  have hmem : ∀ x ∈ natDigits n, 48 ≤ x ∧ x ≤ 57 := by
    rw [natDigits_eq]; exact natDigitsRec_mem n
  have hne : natDigits n ≠ [] := by rw [natDigits_eq]; exact natDigitsRec_ne_nil n
  rw [searchCL_cl_digits _ hmem hne, natDigits_eq, digitsToNat_natDigitsRec]

end AzurePricing

namespace AzurePricing

/-! ## Fuel lemmas for the decode loop -/

theorem decodeLoop_nil (f : Nat) : decodeLoop f [] = ([], []) := by
  cases f <;> rfl

theorem decodeLoop_succ (f : Nat) (buffer : List Nat) :
    decodeLoop (f + 1) buffer =
      match findSep buffer with
      | none => ([], buffer)
      | some headerEnd =>
        match searchCL (buffer.take headerEnd) with
        | none => decodeLoop f (buffer.drop (headerEnd + 4))
        | some n =>
          if buffer.length < headerEnd + 4 + n then ([], buffer)
          else ((buffer.drop (headerEnd + 4)).take n ::
                  (decodeLoop f (buffer.drop (headerEnd + 4 + n))).1,
                (decodeLoop f (buffer.drop (headerEnd + 4 + n))).2) := rfl

theorem decodeLoop_eq : ∀ (f : Nat) (buf : List Nat), buf.length ≤ f →
    decodeLoop f buf = decodeLoop buf.length buf := by
  intro f
  induction f using Nat.strong_induction_on with
  | _ f ih =>
    intro buf h
    cases f with
    | zero =>
      have hb : buf = [] := List.eq_nil_of_length_eq_zero (by omega)
      subst hb; rfl
    | succ g =>
      cases buf with
      | nil => simp [decodeLoop_nil]
      | cons b bs =>
        rw [show (b :: bs).length = bs.length + 1 from rfl]
        rw [decodeLoop_succ, decodeLoop_succ]
        rcases Option.eq_none_or_eq_some (findSep (b :: bs)) with hfs | ⟨he, hfs⟩
        · simp only [hfs]
        · have hbound := findSep_some_bound _ _ hfs
          simp only [List.length_cons] at hbound h
          simp only [hfs]
          rcases Option.eq_none_or_eq_some (searchCL (List.take he (b :: bs))) with hcl | ⟨n, hcl⟩
          · simp only [hcl]
            have hdl : (List.drop (he + 4) (b :: bs)).length = bs.length + 1 - (he + 4) := by
              simp [List.length_drop]
            rw [ih g (by omega) (List.drop (he + 4) (b :: bs)) (by rw [hdl]; omega),
              ih bs.length (by omega) (List.drop (he + 4) (b :: bs)) (by rw [hdl]; omega)]
          · simp only [hcl]
            by_cases hlt : (b :: bs).length < he + 4 + n
            · rw [if_pos hlt, if_pos hlt]
            · rw [if_neg hlt, if_neg hlt]
              have hdl : (List.drop (he + 4 + n) (b :: bs)).length
                  = bs.length + 1 - (he + 4 + n) := by
                simp [List.length_drop]
              rw [ih g (by omega) (List.drop (he + 4 + n) (b :: bs)) (by rw [hdl]; omega),
                ih bs.length (by omega) (List.drop (he + 4 + n) (b :: bs)) (by rw [hdl]; omega)]

theorem decodeAll_wait (buf : List Nat) (h : findSep buf = none) : decodeAll buf = ([], buf) := by
  rw [decodeAll]
  cases buf with
  | nil => rfl
  | cons b bs =>
    rw [show (b :: bs).length = bs.length + 1 from rfl, decodeLoop_succ]
    simp only [h]

theorem frameEncode_length (p : List Nat) :
    (frameEncode p).length = (clBytes ++ natDigits p.length).length + 4 + p.length := by
  simp only [frameEncode, List.length_append, crlf2, List.length_cons, List.length_nil, clBytes]

/-- Decoding a whole encoded frame yields exactly that frame's body, once,
and consumes the entire buffer. -/
theorem decodeAll_frameEncode (p : List Nat) : decodeAll (frameEncode p) = ([p], []) := by
  have hfs : findSep ((clBytes ++ natDigits p.length) ++ crlf2 ++ p)
      = some (clBytes ++ natDigits p.length).length :=
    findSep_append_no13 _ _ (clHeader_no13 p.length)
  have hlen : ((clBytes ++ natDigits p.length) ++ crlf2 ++ p).length
      = (clBytes ++ natDigits p.length).length + 4 + p.length := by
    simp only [List.length_append, crlf2, List.length_cons, List.length_nil]
  have htake : List.take (clBytes ++ natDigits p.length).length
      ((clBytes ++ natDigits p.length) ++ crlf2 ++ p) = clBytes ++ natDigits p.length := by
    rw [List.append_assoc, List.take_left]
  have hcl := searchCL_clHeader p.length
  have hdrop : List.drop ((clBytes ++ natDigits p.length).length + 4)
      ((clBytes ++ natDigits p.length) ++ crlf2 ++ p) = p := by
    rw [show (clBytes ++ natDigits p.length).length + 4
        = ((clBytes ++ natDigits p.length) ++ crlf2).length from by
          simp only [List.length_append, crlf2, List.length_cons, List.length_nil],
      List.drop_left]
  have hdrop2 : List.drop ((clBytes ++ natDigits p.length).length + 4 + p.length)
      ((clBytes ++ natDigits p.length) ++ crlf2 ++ p) = [] :=
    List.drop_eq_nil_of_le (by rw [hlen])
  rw [decodeAll, show frameEncode p = (clBytes ++ natDigits p.length) ++ crlf2 ++ p from rfl,
    ← decodeLoop_eq (((clBytes ++ natDigits p.length) ++ crlf2 ++ p).length + 1) _
      (Nat.le_succ _)]
  simp only [decodeLoop_succ, hfs, htake, hcl]
  rw [if_neg (by rw [hlen]; omega), hdrop, hdrop2, List.take_length, decodeLoop_nil]

/-- When the separator is buffered and the length parses but the body is
incomplete, the loop waits and consumes nothing. -/
theorem decodeAll_wait_body (hd rest : List Nat) (n : Nat)
    (hno13 : ∀ x ∈ hd, x ≠ 13) (hcl : searchCL hd = some n)
    (hlen : (hd ++ crlf2 ++ rest).length < hd.length + 4 + n) :
    decodeAll (hd ++ crlf2 ++ rest) = ([], hd ++ crlf2 ++ rest) := by
  have hfs := findSep_append_no13 hd rest hno13
  have htake : List.take hd.length (hd ++ crlf2 ++ rest) = hd := by
    rw [List.append_assoc, List.take_left]
  rw [decodeAll, ← decodeLoop_eq ((hd ++ crlf2 ++ rest).length + 1) _ (Nat.le_succ _)]
  simp only [decodeLoop_succ, hfs, htake, hcl]
  rw [if_pos hlen]

/-- A header block with no parsable Content-Length, terminated by the blank
line, is discarded exactly: decoding resumes on the remainder. -/
theorem decodeAll_skip (bad rest : List Nat)
    (hcl : searchCL bad = none)
    (hsep : findSep (bad ++ crlf2) = some bad.length) :
    decodeAll (bad ++ crlf2 ++ rest) = decodeAll rest := by
  have hfs : findSep ((bad ++ crlf2) ++ rest) = some bad.length :=
    findSep_append_of_some _ _ _ hsep
  have htake : List.take bad.length ((bad ++ crlf2) ++ rest) = bad := by
    rw [List.append_assoc, List.take_left]
  have hdrop : List.drop (bad.length + 4) ((bad ++ crlf2) ++ rest) = rest := by
    rw [show bad.length + 4 = (bad ++ crlf2).length from by
        simp only [List.length_append, crlf2, List.length_cons, List.length_nil],
      List.drop_left]
  rw [decodeAll, ← decodeLoop_eq (((bad ++ crlf2) ++ rest).length + 1) _ (Nat.le_succ _)]
  simp only [decodeLoop_succ, hfs, htake, hcl, hdrop]
  rw [decodeLoop_eq _ _ (by simp only [List.length_append]; omega), decodeAll]

end AzurePricing

namespace AzurePricing

/-- C1: For every JSON-serializable object X (modelled by any serializer /
deserializer pair for which the external JSON library round-trips, as
Python's `json.dumps` / `json.loads` does), encoding X's serialized bytes
with the frame encoder `_mcp_write` (which produces
`"Content-Length: " + length + CRLF CRLF + body` and nothing else) and then
running the decode loop of `run_mcp_stdio` on the resulting bytes yields
exactly one frame, consuming the whole buffer, and that frame's body
deserializes to a value equal to X. -/
theorem frame_roundtrip {J : Type} (ser : J → List Nat) (deser : List Nat → Option J)
    (X : J) (h : deser (ser X) = some X) :
    decodeAll (frameEncode (ser X)) = ([ser X], []) ∧
    (decodeAll (frameEncode (ser X))).1.map deser = [some X] := by
  refine ⟨decodeAll_frameEncode _, ?_⟩
  rw [decodeAll_frameEncode]
  simp [h]

theorem frame_roundtrip_witness :
    decodeAll (frameEncode [7]) = ([[7]], []) ∧
    (decodeAll (frameEncode [7])).1.map (fun l : List Nat => l.head?) = [some 7] :=
  frame_roundtrip (fun n : Nat => [n]) (fun l => l.head?) 7 rfl

/-- C2: For every well-formed encoded frame and every split offset
`k` strictly inside its byte sequence, feeding the first `k` bytes to the
decode loop yields no frame and leaves the buffer untouched (it waits for
more data without consuming any bytes — in particular, when Content-Length
is already parsable but the body is incomplete, no header bytes are
consumed), and then appending the remaining bytes yields exactly the same
single decoded frame as feeding all bytes at once. -/
theorem partial_feed (p : List Nat) (k : Nat) (hk : k < (frameEncode p).length) :
    decodeAll ((frameEncode p).take k) = ([], (frameEncode p).take k) ∧
    decodeAll ((frameEncode p).take k ++ (frameEncode p).drop k) = ([p], []) := by
  constructor
  · by_cases hcase : k < (clBytes ++ natDigits p.length).length + 4
    · -- not even the whole separator is buffered: no separator is found
      apply decodeAll_wait
      have hdecomp : (frameEncode p).take k
          = (clBytes ++ natDigits p.length).take k
            ++ crlf2.take (k - (clBytes ++ natDigits p.length).length) := by
        rw [show frameEncode p = (clBytes ++ natDigits p.length) ++ (crlf2 ++ p) from by
            rw [frameEncode, List.append_assoc]]
        rw [List.take_append_eq_append_take]
        congr 1
        rw [List.take_append_eq_append_take,
          show (k - (clBytes ++ natDigits p.length).length) - crlf2.length = 0 from by
            simp only [crlf2, List.length_cons, List.length_nil]
            omega,
          List.take_zero, List.append_nil]
      rw [hdecomp]
      apply findSep_append_none
      · intro x hx
        exact clHeader_no13 p.length x (List.take_subset _ _ hx)
      · have hm : k - (clBytes ++ natDigits p.length).length ≤ 3 := by omega
        set m := k - (clBytes ++ natDigits p.length).length with hmdef
        interval_cases m <;> decide
    · -- header and separator complete, body incomplete: wait, consume nothing
      have hflen := frameEncode_length p
      have hlen2 : (clBytes ++ natDigits p.length).length
          = clBytes.length + (natDigits p.length).length := List.length_append _ _
      have hdecomp : (frameEncode p).take k
          = (clBytes ++ natDigits p.length) ++ crlf2
            ++ p.take (k - (clBytes ++ natDigits p.length).length - 4) := by
        rw [show frameEncode p = ((clBytes ++ natDigits p.length) ++ crlf2) ++ p from rfl,
          List.take_append_eq_append_take,
          List.take_of_length_le (show ((clBytes ++ natDigits p.length) ++ crlf2).length ≤ k from by
            simp only [List.length_append, crlf2, List.length_cons, List.length_nil]
            omega)]
        congr 2
        simp only [List.length_append, crlf2, List.length_cons, List.length_nil]
        omega
      rw [hdecomp]
      apply decodeAll_wait_body _ _ p.length (clHeader_no13 p.length) (searchCL_clHeader p.length)
      simp only [List.length_append, crlf2, List.length_cons, List.length_nil, List.length_take]
      omega
  · rw [List.take_append_drop]
    exact decodeAll_frameEncode p

theorem partial_feed_witness :
    decodeAll ((frameEncode [55]).take 5) = ([], (frameEncode [55]).take 5) ∧
    decodeAll ((frameEncode [55]).take 5 ++ (frameEncode [55]).drop 5) = ([[55]], []) :=
  partial_feed [55] 5 (by decide)

/-- C3: For every buffer consisting of a header block with no parsable
Content-Length field (ASCII bytes, terminated by the blank line that is the
buffer's first separator) immediately followed by one well-formed encoded
frame, the decode loop discards exactly the malformed header block's bytes
(header plus separator) — decoding resumes on whatever follows — and then
decodes exactly one frame, the well-formed one, without crashing. -/
theorem header_resync (bad p : List Nat)
    (hascii : ∀ x ∈ bad, x < 128)
    (hcl : searchCL bad = none)
    (hsep : findSep (bad ++ crlf2) = some bad.length) :
    (∀ rest, decodeAll (bad ++ crlf2 ++ rest) = decodeAll rest) ∧
    decodeAll (bad ++ crlf2 ++ frameEncode p) = ([p], []) := by
  refine ⟨fun rest => decodeAll_skip bad rest hcl hsep, ?_⟩
  rw [decodeAll_skip bad _ hcl hsep, decodeAll_frameEncode]

theorem header_resync_witness :
    decodeAll ([70, 111, 111] ++ crlf2 ++ frameEncode [55]) = ([[55]], []) :=
  (header_resync [70, 111, 111] [55] (by decide) (by decide) (by decide)).2

end AzurePricing

namespace AzurePricing

/-! ## Lemmas about the retry loop -/

theorem fetchGo_succ {J : Type} (backoff : ℚ) (oracle : Nat → Attempt J) (attempt r : Nat) :
    fetchGo backoff oracle attempt (r + 1) =
      match oracle attempt with
      | .success body => (.ok body, 1, [])
      | .transportError e | .badJson e =>
        if r = 0 then (.error e, 1, [])
        else ((fetchGo backoff oracle (attempt + 1) r).1,
              (fetchGo backoff oracle (attempt + 1) r).2.1 + 1,
              backoff * 2 ^ attempt :: (fetchGo backoff oracle (attempt + 1) r).2.2) := rfl

theorem fetchGo_calls_le {J : Type} (backoff : ℚ) (oracle : Nat → Attempt J) :
    ∀ (remaining attempt : Nat), (fetchGo backoff oracle attempt remaining).2.1 ≤ remaining := by
  intro remaining
  induction remaining with
  | zero => intro attempt; simp [fetchGo]
  | succ r ih =>
    intro attempt
    rcases h : oracle attempt with body | e | e
    · simp [fetchGo_succ, h]
    · simp only [fetchGo_succ, h]
      by_cases hr0 : r = 0
      · simp [hr0]
      · simp only [if_neg hr0]
        have := ih (attempt + 1)
        omega
    · simp only [fetchGo_succ, h]
      by_cases hr0 : r = 0
      · simp [hr0]
      · simp only [if_neg hr0]
        have := ih (attempt + 1)
        omega

theorem range_map_pow_cons (backoff : ℚ) (attempt k : Nat) :
    (List.range (k + 1)).map (fun i => backoff * 2 ^ (attempt + i))
      = backoff * 2 ^ attempt :: (List.range k).map (fun i => backoff * 2 ^ (attempt + 1 + i)) := by
  rw [List.range_succ_eq_map, List.map_cons, List.map_map]
  refine congrArg₂ _ (by rw [Nat.add_zero]) ?_
  congr 1
  funext i
  simp only [Function.comp_apply, Nat.succ_eq_add_one]
  rw [show attempt + (i + 1) = attempt + 1 + i from by omega]

theorem fetchGo_all_fail {J : Type} (backoff : ℚ) (oracle : Nat → Attempt J)
    (errs : Nat → String) :
    ∀ (remaining attempt : Nat), 1 ≤ remaining →
      (∀ i, i < remaining → oracle (attempt + i) = .transportError (errs (attempt + i))) →
      fetchGo backoff oracle attempt remaining
        = (.error (errs (attempt + remaining - 1)), remaining,
           (List.range (remaining - 1)).map (fun i => backoff * 2 ^ (attempt + i))) := by
  intro remaining
  induction remaining with
  | zero => intro attempt h1; omega
  | succ r ih =>
    intro attempt h1 hfail
    have h0 := hfail 0 (by omega)
    rw [Nat.add_zero] at h0
    simp only [fetchGo_succ, h0]
    by_cases hr0 : r = 0
    · subst hr0; simp
    · simp only [if_neg hr0]
      rw [ih (attempt + 1) (by omega) (fun i hi => by
        have h2 := hfail (i + 1) (by omega)
        rw [show attempt + (i + 1) = attempt + 1 + i from by omega] at h2
        exact h2)]
      refine congrArg₂ Prod.mk ?_ (congrArg₂ Prod.mk ?_ ?_)
      · show Except.error (errs (attempt + 1 + r - 1)) = Except.error (errs (attempt + (r + 1) - 1))
        rw [show attempt + 1 + r - 1 = attempt + (r + 1) - 1 from by omega]
      · show r + 1 = r + 1
        rfl
      · show backoff * 2 ^ attempt
              :: (List.range (r - 1)).map (fun i => backoff * 2 ^ (attempt + 1 + i))
            = (List.range (r + 1 - 1)).map (fun i => backoff * 2 ^ (attempt + i))
        rw [show r + 1 - 1 = (r - 1) + 1 from by omega, range_map_pow_cons]

theorem fetchGo_fail_then_success {J : Type} (backoff : ℚ) (oracle : Nat → Attempt J)
    (errs : Nat → String) (body : J) :
    ∀ (k remaining attempt : Nat), k < remaining →
      (∀ i, i < k → oracle (attempt + i) = .transportError (errs (attempt + i))) →
      oracle (attempt + k) = .success body →
      fetchGo backoff oracle attempt remaining
        = (.ok body, k + 1, (List.range k).map (fun i => backoff * 2 ^ (attempt + i))) := by
  intro k
  induction k with
  | zero =>
    intro remaining attempt hk hfail hsucc
    rw [Nat.add_zero] at hsucc
    obtain ⟨r, rfl⟩ : ∃ r, remaining = r + 1 := ⟨remaining - 1, by omega⟩
    simp [fetchGo_succ, hsucc]
  | succ k ih =>
    intro remaining attempt hk hfail hsucc
    have h0 := hfail 0 (by omega)
    rw [Nat.add_zero] at h0
    obtain ⟨r, rfl⟩ : ∃ r, remaining = r + 1 := ⟨remaining - 1, by omega⟩
    simp only [fetchGo_succ, h0]
    have hr0 : r ≠ 0 := by omega
    simp only [if_neg hr0]
    rw [ih r (attempt + 1) (by omega)
      (fun i hi => by
        have h2 := hfail (i + 1) (by omega)
        rw [show attempt + (i + 1) = attempt + 1 + i from by omega] at h2
        exact h2)
      (by rw [show attempt + 1 + k = attempt + (k + 1) from by omega]; exact hsucc)]
    refine congrArg₂ Prod.mk ?_ (congrArg₂ Prod.mk ?_ ?_)
    · show Except.ok body = Except.ok body
      rfl
    · show k + 1 + 1 = k + 1 + 1
      rfl
    · show backoff * 2 ^ attempt
            :: (List.range k).map (fun i => backoff * 2 ^ (attempt + 1 + i))
          = (List.range (k + 1)).map (fun i => backoff * 2 ^ (attempt + i))
      rw [range_map_pow_cons]

/-- C4: For every configuration with maxAttempts = RETRIES ≥ 1, a single
`fetch_prices` invocation performs at most RETRIES HTTP GET calls; if every
attempt fails with a transport error, exactly RETRIES calls occur and the
last attempt's error propagates to the caller; if the first attempt returns
a successful response, exactly one call occurs and its parsed JSON body is
returned with no further attempts (and no backoff sleep). -/
theorem fetch_retry_bound {J : Type} (backoff : ℚ) (retries : Nat)
    (oracle : Nat → Attempt J) (errs : Nat → String) (body : J) (hr : 1 ≤ retries) :
    (fetch_prices backoff retries oracle).2.1 ≤ retries ∧
    ((∀ i, i < retries → oracle i = .transportError (errs i)) →
      fetch_prices backoff retries oracle
        = (.error (errs (retries - 1)), retries,
           (List.range (retries - 1)).map (fun i => backoff * 2 ^ i))) ∧
    (oracle 0 = .success body →
      fetch_prices backoff retries oracle = (.ok body, 1, [])) := by
  refine ⟨fetchGo_calls_le backoff oracle retries 0, ?_, ?_⟩
  · intro hfail
    have h := fetchGo_all_fail backoff oracle errs retries 0 hr
      (fun i hi => by simpa using hfail i hi)
    rw [fetch_prices, h]
    simp
  · intro hsucc
    have h := fetchGo_fail_then_success backoff oracle errs body 0 retries 0 hr
      (fun i hi => absurd hi (by omega)) (by simpa using hsucc)
    rw [fetch_prices, h]
    simp

theorem fetch_retry_bound_witness :
    fetch_prices ((1:ℚ)/2) 3 (fun _ => (Attempt.transportError "boom" : Attempt Nat))
      = (.error "boom", 3, [1/2, 1]) := by
  have h := (fetch_retry_bound ((1:ℚ)/2) 3
      (fun _ => (Attempt.transportError "boom" : Attempt Nat))
      (fun _ => "boom") 0 (by omega)).2.1 (fun i hi => rfl)
  rw [h]
  norm_num [show List.range 2 = [0, 1] from rfl]

/-- C5: In `fetch_prices`, every failing attempt i that is not the last
sleeps exactly BACKOFF * 2 ^ i seconds before the next attempt
(attempt-indexed pure exponential backoff, no jitter), and no sleep occurs
after the last attempt or after a success: with all attempts failing the
sleep list is exactly the backoffs of attempts 0..RETRIES-2, and with the
first success at attempt k it is exactly the backoffs of attempts 0..k-1.
Hence for RETRIES = 3 and BACKOFF = 0.5 the sleeps between attempts 0 and 1
and between 1 and 2 are 0.5 s and 1.0 s. -/
theorem fetch_backoff {J : Type} (backoff : ℚ) (retries : Nat)
    (oracle : Nat → Attempt J) (errs : Nat → String) (body : J) (hr : 1 ≤ retries) :
    ((∀ i, i < retries → oracle i = .transportError (errs i)) →
      (fetch_prices backoff retries oracle).2.2
        = (List.range (retries - 1)).map (fun i => backoff * 2 ^ i)) ∧
    (∀ k, k < retries → (∀ i, i < k → oracle i = .transportError (errs i)) →
      oracle k = .success body →
      (fetch_prices backoff retries oracle).2.2
        = (List.range k).map (fun i => backoff * 2 ^ i)) := by
  constructor
  · intro hfail
    have h := fetchGo_all_fail backoff oracle errs retries 0 hr
      (fun i hi => by simpa using hfail i hi)
    rw [fetch_prices, h]
    simp
  · intro k hk hfail hsucc
    have h := fetchGo_fail_then_success backoff oracle errs body k retries 0 hk
      (fun i hi => by simpa using hfail i hi) (by simpa using hsucc)
    rw [fetch_prices, h]
    simp

theorem fetch_backoff_witness :
    (fetch_prices ((1:ℚ)/2) 3 (fun _ => (Attempt.transportError "boom" : Attempt Nat))).2.2
      = [1/2, 1] := by
  have h := (fetch_backoff ((1:ℚ)/2) 3
      (fun _ => (Attempt.transportError "boom" : Attempt Nat))
      (fun _ => "boom") 0 (by omega)).1 (fun i hi => rfl)
  rw [h]
  norm_num [show List.range 2 = [0, 1] from rfl]

/-- C6 (counterexample to the claim as stated): with RETRIES = 3,
BACKOFF = 0.5, an oracle whose first attempt yields a 2xx response with an
invalid JSON body — `resp.json()` raises
`requests.exceptions.JSONDecodeError`, which subclasses
`requests.RequestException` since requests 2.27, so the except clause
catches it — and whose second attempt succeeds, `fetch_prices` sleeps 0.5 s
after the decode failure, performs a second HTTP call, and returns the
second attempt's body: the decode failure is retried and does not propagate,
contradicting the claim. -/
theorem fetch_decode_retried :
    fetch_prices ((1:ℚ)/2) 3
        (fun i => if i = 0 then Attempt.badJson "Expecting value" else Attempt.success (0 : Nat))
      = (.ok 0, 2, [1/2]) := by
  norm_num [fetch_prices, fetchGo]

theorem fetchGo_congr {J : Type} (backoff : ℚ) (o o2 : Nat → Attempt J)
    (h : ∀ i, o i = o2 i ∨ ∃ e, o i = .badJson e ∧ o2 i = .transportError e) :
    ∀ (remaining attempt : Nat),
      fetchGo backoff o attempt remaining = fetchGo backoff o2 attempt remaining := by
  intro remaining
  induction remaining with
  | zero => intro attempt; rfl
  | succ r ih =>
    intro attempt
    simp only [fetchGo_succ, ih]
    rcases h attempt with heq | ⟨e, h1, h2⟩
    · rw [heq]
    · rw [h1, h2]

/-- C6 (amended): in `fetch_prices`, a 2xx response whose body fails JSON
decoding raises `requests.exceptions.JSONDecodeError`, a
`requests.RequestException` subclass (requests ≥ 2.27), so the
`except requests.RequestException` clause catches it and it is retried with
backoff exactly like a transport-level failure: replacing decode failures by
transport errors with the same message, attempt by attempt, leaves the whole
trace (result, HTTP call count, sleep list) unchanged.  In particular a
decode failure propagates only when it strikes the last attempt. -/
theorem fetch_decode_like_transport {J : Type} (backoff : ℚ) (retries : Nat)
    (o o2 : Nat → Attempt J)
    (h : ∀ i, o i = o2 i ∨ ∃ e, o i = .badJson e ∧ o2 i = .transportError e) :
    fetch_prices backoff retries o = fetch_prices backoff retries o2 := by
  rw [fetch_prices, fetch_prices]
  exact fetchGo_congr backoff o o2 h retries 0

theorem fetch_decode_like_transport_witness :
    fetch_prices ((1:ℚ)/2) 3
        (fun i => if i = 0 then Attempt.badJson "bad" else Attempt.success (0 : Nat))
      = fetch_prices ((1:ℚ)/2) 3
        (fun i => if i = 0 then Attempt.transportError "bad" else Attempt.success (0 : Nat)) :=
  fetch_decode_like_transport ((1:ℚ)/2) 3 _ _ (fun i => by
    by_cases h0 : i = 0
    · exact Or.inr ⟨"bad", by simp [h0], by simp [h0]⟩
    · exact Or.inl (by simp [h0]))

end AzurePricing

namespace AzurePricing

/-! ## Lemmas about the dispatcher -/

theorem ebind_ok {α β : Type} (a : α) (f : α → Except String β) :
    (Except.ok a >>= f : Except String β) = f a := rfl

theorem except_bind_ok {α β : Type} (x : Except String α) (f : α → Except String β) (r : β)
    (h : x >>= f = .ok r) : ∃ a, x = .ok a ∧ f a = .ok r := by
  cases x with
  | error e => simp [Bind.bind, Except.bind] at h
  | ok a => exact ⟨a, rfl, by simpa [Bind.bind, Except.bind] using h⟩

theorem isRespFor_result (reqId v : JVal) : isRespFor reqId (_mcp_result reqId v) :=
  ⟨rfl, Or.inl rfl⟩

theorem isRespFor_error (reqId : JVal) (c : Int) (m : String) :
    isRespFor reqId (_mcp_error reqId c m) :=
  ⟨rfl, Or.inr rfl⟩

/-- Every response object the try-body of `handle` produces carries the
request's id and is a result or an error. -/
theorem dispatch_resp (fetch : String → Except String JVal) (dR dC reqId method params : JVal)
    (r : JVal) (h : dispatch fetch dR dC reqId method params = .ok r) : isRespFor reqId r := by
  rw [dispatch] at h
  by_cases h1 : isStr method "initialize" = true
  · rw [if_pos h1] at h; cases h; exact isRespFor_result _ _
  · rw [if_neg h1] at h
    by_cases h2 : isStr method "ping" = true
    · rw [if_pos h2] at h; cases h; exact isRespFor_result _ _
    · rw [if_neg h2] at h
      by_cases h3 : isStr method "tools/list" = true
      · rw [if_pos h3] at h; cases h; exact isRespFor_result _ _
      · rw [if_neg h3] at h
        by_cases h4 : isStr method "tools/call" = true
        · rw [if_pos h4] at h
          obtain ⟨name, hn, h⟩ := except_bind_ok _ _ _ h
          obtain ⟨argsRaw, ha, h⟩ := except_bind_ok _ _ _ h
          obtain ⟨regionRaw, hreg, h⟩ := except_bind_ok _ _ _ h
          obtain ⟨currencyRaw, hcur, h⟩ := except_bind_ok _ _ _ h
          by_cases hn1 : isStr name "price_search" = true
          · rw [if_pos hn1] at h
            obtain ⟨sku, hsk, h⟩ := except_bind_ok _ _ _ h
            by_cases hs : truthy sku = false
            · rw [if_pos hs] at h; cases h; exact isRespFor_error _ _ _
            · rw [if_neg hs] at h
              obtain ⟨pr, hpr, h⟩ := except_bind_ok _ _ _ h
              cases h; exact isRespFor_result _ _
          · rw [if_neg hn1] at h
            by_cases hn2 : isStr name "cost_estimate" = true
            · rw [if_pos hn2] at h
              obtain ⟨sku, hsk, h⟩ := except_bind_ok _ _ _ h
              by_cases hs : truthy sku = false
              · rw [if_pos hs] at h; cases h; exact isRespFor_error _ _ _
              · rw [if_neg hs] at h
                obtain ⟨qty, hq, h⟩ := except_bind_ok _ _ _ h
                rcases hpi : pyInt qty with e | qi
                · rw [hpi] at h; cases h; exact isRespFor_error _ _ _
                · rw [hpi] at h
                  obtain ⟨ce, hce, h⟩ := except_bind_ok _ _ _ h
                  cases h; exact isRespFor_result _ _
            · rw [if_neg hn2] at h; cases h; exact isRespFor_error _ _ _
        · rw [if_neg h4] at h; cases h; exact isRespFor_error _ _ _

/-- C7: For every decoded message passed to `handle`, exactly one framed
response — a result or an error carrying the same id — is written to the
output stream when the message is an object whose `id` field is present and
non-null (for all methods, including unknown ones, and whether or not the
tool handler raises: the model returns `some r` exactly when one
`_mcp_write` happens), and nothing at all is written (zero output bytes)
when the `id` field is absent or null (a notification) or the message is
not an object. -/
theorem dispatch_one_response (fetch : String → Except String JVal)
    (defRegion defCurrency : JVal) (msg : JVal) :
    (isObj msg = true ∧ isNull (reqIdOf msg) = false →
      ∃ r, handle fetch defRegion defCurrency msg = some r ∧ isRespFor (reqIdOf msg) r) ∧
    (isObj msg = false ∨ isNull (reqIdOf msg) = true →
      handle fetch defRegion defCurrency msg = none) := by
  constructor
  · rintro ⟨h1, h2⟩
    obtain ⟨kvs, rfl⟩ : ∃ kvs, msg = JVal.obj kvs := by
      cases msg <;> first | exact ⟨_, rfl⟩ | simp [isObj] at h1
    simp only [reqIdOf] at h2
    simp only [handle]
    rw [if_neg (by simp [h2])]
    refine ⟨_, rfl, ?_⟩
    rcases hd : dispatch fetch defRegion defCurrency (pyGet0 kvs "id") (pyGet0 kvs "method")
        (pyOr (pyGet0 kvs "params") (.obj [])) with e | resp
    · simp only [hd]
      exact isRespFor_error _ _ _
    · simp only [hd]
      exact dispatch_resp fetch _ _ _ _ _ resp hd
  · intro h
    cases msg with
    | obj kvs =>
      rcases h with h | h
      · simp [isObj] at h
      · simp only [reqIdOf] at h
        simp only [handle]
        rw [if_pos h]
    | null => rfl
    | bool b => rfl
    | num q => rfl
    | str s => rfl
    | arr xs => rfl

theorem dispatch_one_response_witness :
    handle (fun _ => (.error "no upstream" : Except String JVal)) .null .null (.str "junk")
      = none :=
  (dispatch_one_response (fun _ => .error "no upstream") .null .null (.str "junk")).2
    (Or.inl rfl)

/-- C8 (counterexample to the claim as stated): the message
`{"id": 1}` — a JSON object carrying a non-null id but no usable `method`
field — is NOT silently ignored: `handle` writes exactly one response, the
`-32601` error `Unknown method: None`. -/
theorem no_method_not_ignored :
    handle (fun _ => (.error "no upstream" : Except String JVal)) .null .null
        (.obj [("id", .num 1)])
      = some (_mcp_error (.num 1) (-32601) "Unknown method: None") := rfl

/-- C8 (amended): a message that is not a JSON object is silently ignored
(no response, no crash); an object whose `id` is absent or null is silently
ignored whatever its method; but an object carrying a non-null `id` without
a usable `method` (its method value, `None` when the field is absent, equals
none of the four defined method strings) is answered with exactly one
`-32601` Unknown-method error response rather than ignored. -/
theorem malformed_message_handling (fetch : String → Except String JVal) (dR dC : JVal) :
    (∀ msg, isObj msg = false → handle fetch dR dC msg = none) ∧
    (∀ kvs, isNull (pyGet0 kvs "id") = true → handle fetch dR dC (.obj kvs) = none) ∧
    (∀ kvs, isNull (pyGet0 kvs "id") = false →
      isStr (pyGet0 kvs "method") "initialize" = false →
      isStr (pyGet0 kvs "method") "ping" = false →
      isStr (pyGet0 kvs "method") "tools/list" = false →
      isStr (pyGet0 kvs "method") "tools/call" = false →
      handle fetch dR dC (.obj kvs)
        = some (_mcp_error (pyGet0 kvs "id") (-32601)
            ("Unknown method: " ++ pyStr (pyGet0 kvs "method")))) := by
  refine ⟨?_, ?_, ?_⟩
  · intro msg h
    cases msg with
    | obj kvs => simp [isObj] at h
    | null => rfl
    | bool b => rfl
    | num q => rfl
    | str s => rfl
    | arr xs => rfl
  · intro kvs h
    simp only [handle]
    rw [if_pos h]
  · intro kvs h0 h1 h2 h3 h4
    simp only [handle]
    rw [if_neg (by simp [h0])]
    rw [dispatch, if_neg (by simp [h1]), if_neg (by simp [h2]), if_neg (by simp [h3]),
      if_neg (by simp [h4])]

theorem malformed_message_handling_witness :
    handle (fun _ => (.error "no upstream" : Except String JVal)) .null .null
        (.obj [("id", .num 1)])
      = some (_mcp_error (pyGet0 [("id", .num 1)] "id") (-32601)
          ("Unknown method: " ++ pyStr (pyGet0 [("id", .num 1)] "method"))) :=
  (malformed_message_handling (fun _ => .error "no upstream") .null .null).2.2
    [("id", .num 1)] rfl rfl rfl rfl rfl

end AzurePricing

namespace AzurePricing

/-- C9: For every `price_search` whose upstream fetch returns an `Items`
list of length n, the result has `count` = n and its `items` field holds
exactly the first `min n 5` items (so a 10-item upstream yields count = 10
and 5 items); and every `cost_estimate` whose underlying `price_search`
returns an empty items list (empty upstream `Items`) yields
`status = "not-found"`. -/
theorem price_search_truncation (data : JVal) (items : List JVal) (sku : String)
    (q : Int) (region currency : JVal)
    (hItems : getItems data = .ok items)
    (hsku : pyStrip sku ≠ "") (hlen : sku.length ≤ 200) :
    price_search (fun _ => .ok data) sku region currency
      = .ok (.obj [("status", .str "ok"), ("tool", .str "price_search"), ("sku", .str sku),
                   ("count", .num (items.length : ℚ)), ("items", .arr (items.take 5))]) ∧
    (items.take 5).length = min items.length 5 ∧
    (items = [] →
      cost_estimate (fun _ => .ok data) sku q region currency
        = .ok (.obj [("status", .str "not-found"), ("tool", .str "cost_estimate"),
                     ("sku", .str sku)])) := by
  have h200 : ¬ (200 < sku.length) := by omega
  have hps : price_search (fun _ => .ok data) sku region currency
      = .ok (.obj [("status", .str "ok"), ("tool", .str "price_search"), ("sku", .str sku),
                   ("count", .num (items.length : ℚ)), ("items", .arr (items.take 5))]) := by
    rw [price_search, if_neg hsku, if_neg h200]
    simp only [ebind_ok, hItems]
  refine ⟨hps, by rw [List.length_take, Nat.min_comm], ?_⟩
  intro hnil
  subst hnil
  rw [cost_estimate]
  simp only [hps, ebind_ok]
  rfl

theorem price_search_truncation_witness :
    price_search (fun _ => .ok (.obj [("Items", .arr ([] : List JVal))])) "B2s" .null .null
      = .ok (.obj [("status", .str "ok"), ("tool", .str "price_search"), ("sku", .str "B2s"),
                   ("count", .num (([] : List JVal).length : ℚ)),
                   ("items", .arr (([] : List JVal).take 5))]) ∧
    (([] : List JVal).take 5).length = min ([] : List JVal).length 5 ∧
    (([] : List JVal) = [] →
      cost_estimate (fun _ => .ok (.obj [("Items", .arr ([] : List JVal))])) "B2s" 1 .null .null
        = .ok (.obj [("status", .str "not-found"), ("tool", .str "cost_estimate"),
                     ("sku", .str "B2s")])) :=
  price_search_truncation (.obj [("Items", .arr ([] : List JVal))]) ([] : List JVal) "B2s" 1
    .null .null rfl (by decide) (by decide)

/-- C10: A `tools/call` request naming `cost_estimate` whose arguments
object has a non-empty `sku` string but no `quantity` key is not answered
with an invalid-params error: the dispatcher reads
`arguments.get("quantity", 1)`, so `cost_estimate` is invoked with
quantity 1, and for a non-empty upstream result the single response is a
result whose `quantity` field equals 1 — even though the declared schema of
`cost_estimate` in the tool list marks only `sku` as required and gives
`quantity` a minimum of 1 (last two conjuncts). -/
theorem quantity_defaults_to_one (fetchData item0 : JVal) (rest : List JVal) (p : ℚ)
    (rid : JVal) (akvs : List (String × JVal)) (sku : String) (dR dC : JVal)
    (hrid : isNull rid = false)
    (hsku : lookupKV akvs "sku" = some (.str sku))
    (hs1 : pyStrip sku ≠ "") (hs2 : sku.length ≤ 200)
    (hq : lookupKV akvs "quantity" = none)
    (hItems : getItems fetchData = .ok (item0 :: rest))
    (hprice : pyGetDflt item0 "retailPrice" (.num 0) = .ok (.num p))
    (hp : p ≠ 0) :
    handle (fun _ => .ok fetchData) dR dC
        (.obj [("jsonrpc", .str "2.0"), ("id", rid), ("method", .str "tools/call"),
               ("params", .obj [("name", .str "cost_estimate"),
                                ("arguments", .obj akvs)])])
      = some (_mcp_result rid (.obj [("status", .str "ok"), ("tool", .str "cost_estimate"),
          ("sku", .str sku), ("quantity", .num ((1 : Int) : ℚ)), ("unit_price", .num p),
          ("monthly_usd", .num (p * ((1 : Int) : ℚ) * 730))])) ∧
    ((getPath _mcp_tools_list ["tools"]).bind (fun t => getIdx t 1)).bind
        (fun ce => getPath ce ["inputSchema", "required"]) = some (.arr [.str "sku"]) ∧
    ((getPath _mcp_tools_list ["tools"]).bind (fun t => getIdx t 1)).bind
        (fun ce => getPath ce ["inputSchema", "properties", "quantity", "minimum"])
      = some (.num 1) := by
  have h200 : ¬ (200 < sku.length) := by omega
  have hskune : sku ≠ "" := fun h => hs1 (by rw [h]; rfl)
  have hak : akvs.isEmpty = false := by
    cases akvs with
    | nil => rw [lookupKV] at hsku; cases hsku
    | cons a t => rfl
  have hps : ∀ region currency, price_search (fun _ => .ok fetchData) sku region currency
      = .ok (.obj [("status", .str "ok"), ("tool", .str "price_search"), ("sku", .str sku),
                   ("count", .num (((item0 :: rest).length : ℚ))),
                   ("items", .arr ((item0 :: rest).take 5))]) := by
    intro region currency
    rw [price_search, if_neg hs1, if_neg h200]
    simp only [ebind_ok, hItems]
  have hcost : ∀ region currency, cost_estimate (fun _ => .ok fetchData) sku 1 region currency
      = .ok (.obj [("status", .str "ok"), ("tool", .str "cost_estimate"), ("sku", .str sku),
                   ("quantity", .num ((1 : Int) : ℚ)), ("unit_price", .num p),
                   ("monthly_usd", .num (p * ((1 : Int) : ℚ) * 730))]) := by
    intro region currency
    rw [cost_estimate]
    simp only [hps, ebind_ok]
    simp [getField, lookupKV, List.take_succ_cons, hprice, ebind_ok,
      show pyOr (.num p) (.num 0) = .num p from by rw [pyOr, if_pos (by simp [truthy, hp])]]
  refine ⟨?_, rfl, rfl⟩
  simp only [handle]
  simp [pyGet0, lookupKV, hrid, dispatch, isStr, pyOr, truthy, hak, pyGet1, hsku, hq,
    pyGetDflt, pyInt, pyStr, hskune, hcost, ebind_ok, Int.floor_one]

theorem quantity_defaults_to_one_witness :
    handle (fun _ => .ok (.obj [("Items", .arr [.obj [("retailPrice", .num (1/2))]])]))
        .null .null
        (.obj [("jsonrpc", .str "2.0"), ("id", .num 7), ("method", .str "tools/call"),
               ("params", .obj [("name", .str "cost_estimate"),
                                ("arguments", .obj [("sku", .str "B2s")])])])
      = some (_mcp_result (.num 7) (.obj [("status", .str "ok"),
          ("tool", .str "cost_estimate"), ("sku", .str "B2s"),
          ("quantity", .num ((1 : Int) : ℚ)), ("unit_price", .num (1/2)),
          ("monthly_usd", .num ((1/2) * ((1 : Int) : ℚ) * 730))])) ∧
    ((getPath _mcp_tools_list ["tools"]).bind (fun t => getIdx t 1)).bind
        (fun ce => getPath ce ["inputSchema", "required"]) = some (.arr [.str "sku"]) ∧
    ((getPath _mcp_tools_list ["tools"]).bind (fun t => getIdx t 1)).bind
        (fun ce => getPath ce ["inputSchema", "properties", "quantity", "minimum"])
      = some (.num 1) :=
  quantity_defaults_to_one (.obj [("Items", .arr [.obj [("retailPrice", .num (1/2))]])])
    (.obj [("retailPrice", .num (1/2))]) [] (1/2) (.num 7) [("sku", .str "B2s")] "B2s"
    .null .null rfl rfl (by decide) (by decide) rfl rfl rfl (by norm_num)

end AzurePricing
